import Mathlib

/-!
Formal model of the preprocessing pipeline in src/preprocess/preprocess.py.

The module works over pandas dataframes.  We embed the relevant dataframe
operations over lists of records:

* a dataframe with the rating columns (itemID, userID, rating,
  unixReviewTime) is a list of Row values, in row order;
* groupby(k)[[c]].count() is modelled by countByKey: the group keys appear
  in ascending order (pandas groupby sorts keys) and each key is paired
  with the number of rows carrying it (the rating column is never null in
  this model, so count is the group size);
* sort_values(c, ascending=False) is modelled by a stable ascending sort
  on the counts followed by a reversal: pandas nargsort computes a stable
  ascending argsort of the column (numpy argsort is stable at the sizes
  considered here) and then reverses the whole indexer when
  ascending=False, so rows with equal counts come out in reversed input
  order;
* head(n) keeps the first n rows when n is nonnegative and drops the last
  abs(n) rows when n is negative, as pandas does;
* the float NaN that numpy produces on 0/0 division is modelled by none
  in an Option value; a well-defined float ratio is modelled by some of
  the exact rational.

File reads and pickle writes performed by join_ratings_with_metadata and
preproces_directory are modelled by explicit state passing over a
FileStore that maps paths to already-parsed file contents.
-/

/-- One row of the ratings relation: the csv headers assigned in
join_ratings_with_metadata are itemID, userID, rating, unixReviewTime. -/
structure Row where
  itemID : String
  userID : String
  rating : ℚ
  unixReviewTime : Int
deriving DecidableEq, Repr

/-- A relation (dataframe) over the rating columns, in row order. -/
abbrev Relation := List Row

/-- Insert x before the first element y with le x y; with a total order
le this is the insertion step of a stable insertion sort. -/
def insertLe (le : α → α → Bool) (x : α) : List α → List α
  | [] => [x]
  | y :: ys => if le x y then x :: y :: ys else y :: insertLe le x ys

/-- Stable insertion sort: equal elements keep their input order. -/
def insertionSortLe (le : α → α → Bool) : List α → List α
  | [] => []
  | x :: xs => insertLe le x (insertionSortLe le xs)

/-- Lexicographic order on character lists, by code point, as Python
compares strings. -/
def charListLe : List Char → List Char → Bool
  | [], _ => true
  | _ :: _, [] => false
  | a :: as, b :: bs => if a < b then true else if b < a then false else charListLe as bs

/-- The string order Python sorts by: lexicographic on code points. -/
def strLe (a b : String) : Bool := charListLe a.data b.data

/-- Model of df.groupby([key])[["rating"]].count(): the distinct key
values in ascending order, each with the number of rows carrying it. -/
def countByKey (key : Row → String) (df : Relation) : List (String × Nat) :=
  (insertionSortLe (fun a b => strLe a b) (df.map key).dedup).map
    (fun k => (k, (df.filter (fun r => decide (key r = k))).length))

/-- Model of sort_values("rating", ascending=False) on a counts frame:
pandas computes a stable ascending argsort and reverses it, so ties come
out in reversed input order. -/
def sort_values_desc (l : List (String × Nat)) : List (String × Nat) :=
  (insertionSortLe (fun a b => decide (a.2 ≤ b.2)) l).reverse

/-- Model of DataFrame.head: first n rows for nonnegative n, all but the
last abs(n) rows for negative n. -/
def pd_head (n : Int) (l : List α) : List α :=
  if 0 ≤ n then l.take n.toNat else l.take (l.length - n.natAbs)

/-- users_ratings in extract_ratings: rows grouped by userID, counted,
and sorted by descending count. -/
def users_ratings (df : Relation) : List (String × Nat) :=
  sort_values_desc (countByKey Row.userID df)

/-- users_filtered in extract_ratings: the userID values whose review
count is at least min_reviews. -/
def users_filtered (df : Relation) (min_reviews : Int) : List String :=
  ((users_ratings df).filter (fun p => decide (min_reviews ≤ (p.2 : Int)))).map Prod.fst

/-- top_items in extract_ratings: restrict the relation to qualified
users, group by itemID, count, sort by descending count, take the head
of length top_n, and keep the item identifiers. -/
def top_items (df : Relation) (top_n min_reviews : Int) : List String :=
  (pd_head top_n (sort_values_desc (countByKey Row.itemID
    (df.filter (fun r => decide (r.userID ∈ users_filtered df min_reviews)))))).map Prod.fst

/-- extract_ratings from the source: keep the rows of the original
relation whose itemID is among the top items. -/
def extract_ratings (df : Relation) (top_n min_reviews : Int) : Relation :=
  df.filter (fun r => decide (r.itemID ∈ top_items df top_n min_reviews))

/-- Model of Series.nunique: the number of distinct values. -/
def nunique (l : List String) : Nat := l.dedup.length

/-- The pandas Series returned by calculate_statistics, with its index
labels as field names.  The two ratio fields are float results of an
integer division; none models the NaN obtained on a 0/0 division. -/
structure StatisticsSeries where
  itemID : Nat
  userID : Nat
  rating : Nat
  avg_number_reviews : Option ℚ
  rating_mx_shape : Nat
  sparsity : Option ℚ
deriving DecidableEq, Repr

/-- calculate_statistics from the source: nunique of itemID, nunique of
userID, count of rating, then the three derived values.  When the
divisor is zero the dividend is zero as well (a relation with no users
has no rows), numpy yields NaN, modelled by none. -/
def calculate_statistics (df : Relation) : StatisticsSeries :=
  let ni := nunique (df.map Row.itemID)
  let nu := nunique (df.map Row.userID)
  let nr := df.length
  { itemID := ni
    userID := nu
    rating := nr
    avg_number_reviews := if nu = 0 then none else some ((nr : ℚ) / (nu : ℚ))
    rating_mx_shape := nu * ni
    sparsity := if nu * ni = 0 then none else some (1 - (nr : ℚ) / ((nu * ni : Nat) : ℚ)) }

/-- One parsed metadata record: asin is the natural key, title stands
for the additional descriptive fields. -/
structure Metadata where
  asin : String
  title : String
deriving DecidableEq, Repr

/-- One row of the joined relation: the union of the rating columns and
the metadata columns, join keys kept under their original names. -/
structure JoinedRow where
  itemID : String
  userID : String
  rating : ℚ
  unixReviewTime : Int
  asin : String
  title : String
deriving DecidableEq, Repr

/-- The state the source touches: csv and json files (already parsed
into records, since the parse is format plumbing) and the pickle files
written by the pipeline. -/
structure FileStore where
  csvFiles : String → List Row
  jsonFiles : String → List Metadata
  pickleFiles : List (String × List JoinedRow)

/-- pd.read_csv with the assigned headers: look up the parsed rows. -/
def read_csv (fs : FileStore) (path : String) : List Row := fs.csvFiles path

/-- pd.read_json with lines=True: look up the parsed metadata records. -/
def read_json (fs : FileStore) (path : String) : List Metadata := fs.jsonFiles path

/-- ratings.merge(metadata, left_on itemID, right_on asin, how inner):
each rating row is paired with every metadata row whose asin equals its
itemID, in left-row-major order. -/
def merge (ratings : List Row) (metadata : List Metadata) : List JoinedRow :=
  (ratings.map (fun r => (metadata.filter (fun m => decide (m.asin = r.itemID))).map
    (fun m => ⟨r.itemID, r.userID, r.rating, r.unixReviewTime, m.asin, m.title⟩))).flatten

/-- join_ratings_with_metadata from the source: read the two files from
the store and merge the parsed relations. -/
def join_ratings_with_metadata (fs : FileStore) (rating_path metadata_path : String) :
    List JoinedRow :=
  let ratings := read_csv fs rating_path
  let metadata := read_json fs metadata_path
  merge ratings metadata

/-- DataFrame.to_pickle: record the written dataframe under its path. -/
def to_pickle (fs : FileStore) (path : String) (df : List JoinedRow) : FileStore :=
  { fs with pickleFiles := (path, df) :: fs.pickleFiles }

/-- preproces_directory from the source: for each zipped triple of
paths, join the pair of input files, write the result to the pickle
path, and collect the joined dataframes. -/
def preproces_directory (fs : FileStore) :
    List String → List String → List String → FileStore × List (List JoinedRow)
  | rating :: ratings, meta :: metas, pickle :: pickles =>
      let df := join_ratings_with_metadata fs rating meta
      let fs1 := to_pickle fs pickle df
      let rest := preproces_directory fs1 ratings metas pickles
      (rest.1, df :: rest.2)
  | _, _, _ => (fs, [])

/-! ### Helper lemmas about the embedded dataframe operations -/

theorem mem_insertLe {le : α → α → Bool} {x y : α} {l : List α} :
    y ∈ insertLe le x l ↔ y = x ∨ y ∈ l := by
  induction l with
  | nil => simp [insertLe]
  | cons z zs ih =>
    simp only [insertLe]
    split
    · simp
    · simp [ih]
      tauto

theorem mem_insertionSortLe {le : α → α → Bool} {y : α} {l : List α} :
    y ∈ insertionSortLe le l ↔ y ∈ l := by
  induction l with
  | nil => simp [insertionSortLe]
  | cons x xs ih => simp [insertionSortLe, mem_insertLe, ih]

theorem mem_sort_values_desc {p : String × Nat} {l : List (String × Nat)} :
    p ∈ sort_values_desc l ↔ p ∈ l := by
  simp [sort_values_desc, mem_insertionSortLe]

theorem mem_countByKey {key : Row → String} {df : Relation} {u : String} {c : Nat} :
    (u, c) ∈ countByKey key df ↔
      u ∈ df.map key ∧ c = (df.filter (fun r => decide (key r = u))).length := by
  simp only [countByKey, List.mem_map, mem_insertionSortLe, List.mem_dedup, Prod.mk.injEq]
  constructor
  · rintro ⟨k, hk, rfl, rfl⟩
    exact ⟨hk, rfl⟩
  · rintro ⟨hu, rfl⟩
    exact ⟨u, hu, rfl, rfl⟩

theorem mem_users_filtered {df : Relation} {min_reviews : Int} {u : String} :
    u ∈ users_filtered df min_reviews ↔
      u ∈ df.map Row.userID ∧
        min_reviews ≤ ((df.filter (fun r => decide (r.userID = u))).length : Int) := by
  constructor
  · intro h
    obtain ⟨p, hp, hfst⟩ := List.mem_map.mp h
    obtain ⟨v, c⟩ := p
    obtain ⟨hmem, hge⟩ := List.mem_filter.mp hp
    obtain ⟨hv, hc⟩ := mem_countByKey.mp (mem_sort_values_desc.mp hmem)
    simp only at hfst
    subst hfst
    subst hc
    simp only [decide_eq_true_eq] at hge
    exact ⟨hv, hge⟩
  · rintro ⟨hu, hge⟩
    apply List.mem_map.mpr
    refine ⟨(u, (df.filter (fun r => decide (r.userID = u))).length), ?_, rfl⟩
    apply List.mem_filter.mpr
    refine ⟨mem_sort_values_desc.mpr (mem_countByKey.mpr ⟨hu, rfl⟩), ?_⟩
    simpa using hge

theorem mem_extract_ratings {df : Relation} {top_n min_reviews : Int} {r : Row} :
    r ∈ extract_ratings df top_n min_reviews ↔
      r ∈ df ∧ r.itemID ∈ top_items df top_n min_reviews := by
  simp [extract_ratings, List.mem_filter]

/-! ### Claims -/

/-- C1: the final result of extract_ratings is exactly the set of rows of
the original, non-user-restricted relation whose itemID lies in the top
item set; membership does not depend on the row owner's qualification,
so rows of users below the min_reviews bar are reintroduced whenever
their item is selected. -/
theorem extract_ratings_final_projection (df : Relation) (top_n min_reviews : Int) (r : Row) :
    r ∈ extract_ratings df top_n min_reviews ↔
      r ∈ df ∧ r.itemID ∈ top_items df top_n min_reviews :=
  mem_extract_ratings

/-- C2: user qualification is inclusive at the boundary (a user is kept
iff their row count is at least min_reviews), and the user restriction
is applied before item ranking: the top item computation over df equals
the top item computation over the already-restricted relation with a
trivial qualification bar. -/
theorem extract_ratings_qualifies_before_ranking (df : Relation) (top_n min_reviews : Int) :
    (∀ u, u ∈ users_filtered df min_reviews ↔
        u ∈ df.map Row.userID ∧
          min_reviews ≤ ((df.filter (fun r => decide (r.userID = u))).length : Int)) ∧
    top_items df top_n min_reviews =
      top_items (df.filter (fun r => decide (r.userID ∈ users_filtered df min_reviews)))
        top_n 0 := by
  refine ⟨fun u => mem_users_filtered, ?_⟩
  have hR : (df.filter (fun r => decide (r.userID ∈ users_filtered df min_reviews))).filter
      (fun r => decide (r.userID ∈ users_filtered
        (df.filter (fun r => decide (r.userID ∈ users_filtered df min_reviews))) 0)) =
      df.filter (fun r => decide (r.userID ∈ users_filtered df min_reviews)) := by
    apply List.filter_eq_self.mpr
    intro r hr
    simp only [decide_eq_true_eq]
    exact mem_users_filtered.mpr ⟨List.mem_map_of_mem Row.userID hr, Int.natCast_nonneg _⟩
  unfold top_items
  rw [hR]

/-- C10: when no user reaches the min_reviews bar the qualified set is
empty, the restricted relation is empty, the item ranking is empty, and
extract_ratings returns the empty relation, whatever top_n is. -/
theorem extract_ratings_empty_of_no_qualified_user (df : Relation) (top_n min_reviews : Int)
    (h : ∀ u ∈ df.map Row.userID,
        ((df.filter (fun r => decide (r.userID = u))).length : Int) < min_reviews) :
    extract_ratings df top_n min_reviews = [] := by
  have huf : users_filtered df min_reviews = [] := by
    rcases hne : users_filtered df min_reviews with _ | ⟨u, us⟩
    · rfl
    · exfalso
      have hu : u ∈ users_filtered df min_reviews := by rw [hne]; exact List.mem_cons_self u us
      obtain ⟨hmem, hge⟩ := mem_users_filtered.mp hu
      exact absurd hge (not_le.mpr (h u hmem))
  have hR : df.filter (fun r => decide (r.userID ∈ users_filtered df min_reviews)) = [] := by
    apply List.filter_eq_nil_iff.mpr
    intro r hr
    simp [huf]
  have hT : top_items df top_n min_reviews = [] := by
    unfold top_items
    rw [hR]
    simp [countByKey, insertionSortLe, sort_values_desc, pd_head]
  unfold extract_ratings
  apply List.filter_eq_nil_iff.mpr
  intro r hr
  simp [hT]

/-- Witness for C10 at a concrete input: one user with a single review
and a bar of two reviews gives the empty output for top_n = 5. -/
theorem extract_ratings_empty_of_no_qualified_user_witness :
    extract_ratings [⟨"i1", "u1", 5, 0⟩] 5 2 = [] :=
  extract_ratings_empty_of_no_qualified_user [⟨"i1", "u1", 5, 0⟩] 5 2 (by decide)

/-- C5 counterexample: the source performs no parameter validation, so
the call with top_n = 0 (a value the claim says must fail with
InvalidParameterError) returns an ordinary result, the empty relation;
in the embedding the function is total because no error path exists in
the code. -/
theorem extract_ratings_no_validation_counterexample :
    extract_ratings [⟨"i1", "u1", 5, 0⟩] 0 0 = [] := by decide

/-- C5 amended: extract_ratings never fails on top_n at most 0 or
negative min_reviews; with top_n = 0 the head of the ranking is empty,
so the result is always the empty relation, for every min_reviews. -/
theorem extract_ratings_no_validation (df : Relation) (min_reviews : Int) :
    extract_ratings df 0 min_reviews = [] := by
  have hT : top_items df 0 min_reviews = [] := by
    unfold top_items pd_head
    simp
  unfold extract_ratings
  apply List.filter_eq_nil_iff.mpr
  intro r hr
  simp [hT]

/-- C4 counterexample: on the zero-user relation the source divides zero
by zero, which numpy turns into NaN (modelled by none); the function
returns a statistics record with NaN-valued ratio fields instead of
raising EmptyRelationError — no error path exists in the code. -/
theorem calculate_statistics_zero_users_counterexample :
    (calculate_statistics []).avg_number_reviews = none ∧
      (calculate_statistics []).sparsity = none := by decide

/-- C4 amended: on every relation with zero distinct users,
calculate_statistics returns normally and its avg_number_reviews and
sparsity fields are the NaN of a zero-by-zero division (none in the
model); no EmptyRelationError is raised. -/
theorem calculate_statistics_zero_users_nan (df : Relation)
    (h : nunique (df.map Row.userID) = 0) :
    (calculate_statistics df).avg_number_reviews = none ∧
      (calculate_statistics df).sparsity = none := by
  unfold calculate_statistics
  simp [h]

/-- Witness for the amended C4 at the empty relation. -/
theorem calculate_statistics_zero_users_nan_witness :
    nunique (([] : Relation).map Row.userID) = 0 ∧
      ((calculate_statistics []).avg_number_reviews = none ∧
        (calculate_statistics []).sparsity = none) :=
  ⟨by decide, calculate_statistics_zero_users_nan [] (by decide)⟩

/-- The statistics record as the spec section 3 words it, for comparison
with the source computation: distinct-value counts as finite-set
cardinalities, the row count, and the three derived ratios written
directly as rational expressions. -/
def spec_statistics (df : Relation) : StatisticsSeries :=
  let num_items := (df.map Row.itemID).toFinset.card
  let num_users := (df.map Row.userID).toFinset.card
  let num_ratings := df.length
  { itemID := num_items
    userID := num_users
    rating := num_ratings
    avg_number_reviews := some ((num_ratings : ℚ) / (num_users : ℚ))
    rating_mx_shape := num_users * num_items
    sparsity := some (1 - (num_ratings : ℚ) / ((num_users * num_items : Nat) : ℚ)) }

/-- C6: on every nonempty relation the record computed by
calculate_statistics agrees field by field with the statistics record of
the spec: distinct item count, distinct user count, row count (duplicate
user-item pairs counted independently), average reviews per user as the
quotient of ratings by users, the dense matrix size as the product, and
sparsity as one minus the fill ratio. -/
theorem calculate_statistics_meets_spec (df : Relation) (h : df ≠ []) :
    calculate_statistics df = spec_statistics df := by
  have hu : nunique (df.map Row.userID) ≠ 0 := by
    simp only [nunique, Ne, List.length_eq_zero, List.dedup_eq_nil, List.map_eq_nil_iff]
    exact h
  have hi : nunique (df.map Row.itemID) ≠ 0 := by
    simp only [nunique, Ne, List.length_eq_zero, List.dedup_eq_nil, List.map_eq_nil_iff]
    exact h
  unfold calculate_statistics spec_statistics
  simp only [List.card_toFinset]
  rw [if_neg hu, if_neg (Nat.mul_ne_zero hu hi)]
  simp only [nunique]

/-- Witness for C6 at a concrete one-row relation. -/
theorem calculate_statistics_meets_spec_witness :
    ([⟨"i1", "u1", 5, 0⟩] : Relation) ≠ [] ∧
      calculate_statistics [⟨"i1", "u1", 5, 0⟩] = spec_statistics [⟨"i1", "u1", 5, 0⟩] :=
  ⟨by decide, calculate_statistics_meets_spec [⟨"i1", "u1", 5, 0⟩] (by decide)⟩

/-- C7: raising the qualification bar never enlarges the qualified-user
set, and raising top_n (within the nonnegative range where head takes a
prefix) never shrinks the final output: the smaller top-item list is a
prefix of the larger one, so the final filter keeps at least as many
rows. -/
theorem extract_ratings_monotone (df : Relation) (m1 m2 min_reviews n1 n2 : Int) :
    (m1 ≤ m2 → (users_filtered df m2).length ≤ (users_filtered df m1).length) ∧
    (0 ≤ n1 → n1 ≤ n2 →
      (extract_ratings df n1 min_reviews).length ≤
        (extract_ratings df n2 min_reviews).length) := by
  constructor
  · intro hm
    unfold users_filtered
    rw [List.length_map, List.length_map]
    apply List.Sublist.length_le
    apply List.monotone_filter_right
    intro p hp
    simp only [decide_eq_true_eq] at hp ⊢
    omega
  · intro hn1 hn12
    have hsub : ∀ i ∈ top_items df n1 min_reviews, i ∈ top_items df n2 min_reviews := by
      unfold top_items
      have hpre : pd_head n1 (sort_values_desc (countByKey Row.itemID
            (df.filter (fun r => decide (r.userID ∈ users_filtered df min_reviews))))) <+:
          pd_head n2 (sort_values_desc (countByKey Row.itemID
            (df.filter (fun r => decide (r.userID ∈ users_filtered df min_reviews))))) := by
        unfold pd_head
        rw [if_pos hn1, if_pos (le_trans hn1 hn12)]
        exact List.take_prefix_take_left _ (Int.toNat_le_toNat hn12)
      intro i hi
      exact (hpre.sublist.map Prod.fst).subset hi
    unfold extract_ratings
    apply List.Sublist.length_le
    apply List.monotone_filter_right
    intro r hr
    simp only [decide_eq_true_eq] at hr ⊢
    exact hsub _ hr

/-- Witness for C7 at a concrete relation, bar raised from 1 to 2 and
top_n raised from 1 to 2. -/
theorem extract_ratings_monotone_witness :
    (users_filtered [⟨"i1", "u1", 5, 0⟩, ⟨"i2", "u2", 4, 0⟩] 2).length ≤
        (users_filtered [⟨"i1", "u1", 5, 0⟩, ⟨"i2", "u2", 4, 0⟩] 1).length ∧
      (extract_ratings [⟨"i1", "u1", 5, 0⟩, ⟨"i2", "u2", 4, 0⟩] 1 1).length ≤
        (extract_ratings [⟨"i1", "u1", 5, 0⟩, ⟨"i2", "u2", 4, 0⟩] 2 1).length :=
  ⟨(extract_ratings_monotone [⟨"i1", "u1", 5, 0⟩, ⟨"i2", "u2", 4, 0⟩] 1 2 1 1 2).1
      (by decide),
    (extract_ratings_monotone [⟨"i1", "u1", 5, 0⟩, ⟨"i2", "u2", 4, 0⟩] 1 2 1 1 2).2
      (by decide) (by decide)⟩

/-- The interaction relation of the spec scenario: i1 rated by u1 and
u2, i2 and i3 rated by u1 only, all items covered by metadata. -/
def scenario_df : Relation :=
  [⟨"i1", "u1", 5, 0⟩, ⟨"i1", "u2", 4, 0⟩, ⟨"i2", "u1", 3, 0⟩, ⟨"i3", "u1", 2, 0⟩]

/-- C3 counterexample: on the spec scenario with min_reviews = 2 and
top_n = 1 the item counts tie at one, and the output is not the two i1
rows the claim predicts: pandas sorts the groupby keys ascending and the
descending count sort reverses the stably argsorted order, so ties come
out highest itemID first. -/
theorem extract_ratings_tie_break_counterexample :
    extract_ratings scenario_df 1 2 ≠ [⟨"i1", "u1", 5, 0⟩, ⟨"i1", "u2", 4, 0⟩] := by
  decide

/-- C3 amended: the qualified users are exactly u1 as claimed, but the
deterministic tie-break picks the highest itemID, so the top item is i3
and the output is the single i3 row. -/
theorem extract_ratings_tie_break :
    users_filtered scenario_df 2 = ["u1"] ∧
      top_items scenario_df 1 2 = ["i3"] ∧
        extract_ratings scenario_df 1 2 = [⟨"i3", "u1", 2, 0⟩] := by
  decide

/-- A relation on which the first filter keeps an item (i3) whose only
reviewer (u2) loses enough rows to fall below the qualification bar in
the reduced relation. -/
def duplicate_df : Relation :=
  [⟨"i1", "u1", 5, 0⟩, ⟨"i1", "u1", 4, 1⟩, ⟨"i2", "u2", 3, 2⟩, ⟨"i3", "u2", 2, 3⟩]

/-- C8 counterexample: with top_n = 2 at least the number of distinct
items present in the reduced relation, a second application still drops
the i3 row, because i3's only reviewer is no longer qualified inside the
reduced relation; the stated sufficient condition does not make the
filter idempotent. -/
theorem extract_ratings_idempotence_counterexample :
    ((extract_ratings duplicate_df 2 2).map Row.itemID).dedup.length ≤ 2 ∧
      extract_ratings (extract_ratings duplicate_df 2 2) 2 2 ≠
        extract_ratings duplicate_df 2 2 := by
  decide

/-- C8 amended: the filter is idempotent when the second call's ranking
selects (at least) the same item set: if every item selected from the
original relation is selected again from the reduced relation, the
second application changes nothing.  The condition that top_n bounds the
number of items already present does not suffice, as the counterexample
shows. -/
theorem extract_ratings_idempotent (df : Relation) (top_n min_reviews : Int)
    (h : ∀ i ∈ top_items df top_n min_reviews,
        i ∈ top_items (extract_ratings df top_n min_reviews) top_n min_reviews) :
    extract_ratings (extract_ratings df top_n min_reviews) top_n min_reviews =
      extract_ratings df top_n min_reviews := by
  have hstep : extract_ratings (extract_ratings df top_n min_reviews) top_n min_reviews =
      (extract_ratings df top_n min_reviews).filter
        (fun r => decide (r.itemID ∈
          top_items (extract_ratings df top_n min_reviews) top_n min_reviews)) := rfl
  rw [hstep]
  apply List.filter_eq_self.mpr
  intro r hr
  simp only [decide_eq_true_eq]
  exact h _ (mem_extract_ratings.mp hr).2

/-- A relation already dense enough that reduction keeps every row, so
both rankings select the same item set. -/
def pair_df : Relation := [⟨"i1", "u1", 5, 0⟩, ⟨"i1", "u1", 4, 1⟩]

/-- Witness for the amended C8 at a concrete input where the second
ranking selects the same item set. -/
theorem extract_ratings_idempotent_witness :
    extract_ratings (extract_ratings pair_df 1 2) 1 2 = extract_ratings pair_df 1 2 :=
  extract_ratings_idempotent pair_df 1 2 (by decide)

theorem preproces_directory_cons (fs : FileStore) (r m p : String)
    (rs ms ps : List String) :
    preproces_directory fs (r :: rs) (m :: ms) (p :: ps) =
      ((preproces_directory (to_pickle fs p (join_ratings_with_metadata fs r m)) rs ms ps).1,
        join_ratings_with_metadata fs r m ::
          (preproces_directory (to_pickle fs p (join_ratings_with_metadata fs r m)) rs ms ps).2) :=
  rfl

/-- Two stores that differ only in the parsed content of the ratings
file at path r.csv. -/
def store_a : FileStore :=
  { csvFiles := fun _ => [⟨"i1", "u1", 5, 0⟩]
    jsonFiles := fun _ => [⟨"i1", "t1"⟩]
    pickleFiles := [] }

/-- Like store_a but with an empty ratings file. -/
def store_b : FileStore :=
  { csvFiles := fun _ => []
    jsonFiles := fun _ => [⟨"i1", "t1"⟩]
    pickleFiles := [] }

/-- C9 counterexample: join_ratings_with_metadata is not a pure function
of in-memory relations — it reads the two files, so its result changes
when the file content at the same paths changes; and preproces_directory
writes a pickle file, mutating the store it returns. -/
theorem core_purity_counterexample :
    join_ratings_with_metadata store_a "r.csv" "m.json" ≠
        join_ratings_with_metadata store_b "r.csv" "m.json" ∧
      (preproces_directory store_a ["r.csv"] ["m.json"] ["out.pickle"]).1.pickleFiles ≠
        store_a.pickleFiles := by
  decide

/-- C9 amended: calculate_statistics and extract_ratings take only an
in-memory relation; the joining step, however, reads the two input
files and the batch loop writes one pickle per triple.  The effects are
exactly these: the returned dataframes are the pure merges of the
parsed contents of the initial store (reads are unaffected by the
writes), the csv and json stores are returned unchanged, and the pickle
store gains exactly the written dataframes. -/
theorem preproces_directory_effects (fs : FileStore)
    (ratings metadata pickles : List String) :
    (preproces_directory fs ratings metadata pickles).2 =
        (ratings.zip (metadata.zip pickles)).map
          (fun x => merge (fs.csvFiles x.1) (fs.jsonFiles x.2.1)) ∧
      (preproces_directory fs ratings metadata pickles).1.csvFiles = fs.csvFiles ∧
      (preproces_directory fs ratings metadata pickles).1.jsonFiles = fs.jsonFiles ∧
      (preproces_directory fs ratings metadata pickles).1.pickleFiles =
        ((ratings.zip (metadata.zip pickles)).map
          (fun x => (x.2.2, merge (fs.csvFiles x.1) (fs.jsonFiles x.2.1)))).reverse ++
          fs.pickleFiles := by
  induction ratings generalizing fs metadata pickles with
  | nil => exact ⟨rfl, rfl, rfl, by show fs.pickleFiles = _; simp⟩
  | cons r rs ih =>
    cases metadata with
    | nil => exact ⟨rfl, rfl, rfl, by show fs.pickleFiles = _; simp⟩
    | cons m ms =>
      cases pickles with
      | nil => exact ⟨rfl, rfl, rfl, by show fs.pickleFiles = _; simp⟩
      | cons p ps =>
        rw [preproces_directory_cons]
        obtain ⟨h1, h2, h3, h4⟩ :=
          ih (to_pickle fs p (join_ratings_with_metadata fs r m)) ms ps
        refine ⟨?_, ?_, ?_, ?_⟩
        · rw [h1]
          simp [to_pickle, join_ratings_with_metadata, read_csv, read_json]
        · rw [h2]
          rfl
        · rw [h3]
          rfl
        · rw [h4]
          simp [to_pickle, join_ratings_with_metadata, read_csv, read_json]
